import Mathlib

/-!
Shallow embedding of `src/main.py` (CDP-Class-Table): the browser-resource
pool, session registry, eviction daemons, and the timetable extraction and
parsing workflows, together with proofs of the spec's testable properties.

Conventions of the embedding:
* Python `float` timestamps become `Nat` seconds; `time.time()` values are
  passed in explicitly as `now` arguments.
* Python dicts keyed by session id / driver id become association lists
  `List (Nat × Nat)`; dict assignment is `setKey`, `dict.get(k, 0)` is
  `lookup` with default.
* Selenium drivers are opaque: a driver is its identity (`Nat`); freshly
  created drivers take the next unused identity (`nextDrv`), mirroring the
  fact that `id(driver)` of a live Python object is unique among live objects.
* Fallible selenium/factory operations are driven by explicit outcome
  parameters (`Factory`, `WeekEnv`, `CaptchaEnv`); all other Python
  statements (dict updates, prints, thread starts) are infallible.
* A raised `HTTPException(code, detail)` is `Err.http code detail`; any other
  uncaught Python exception is `Err.raw msg`.
-/

namespace CDPClassTable

/-! ### String primitives mirrored from Python -/

/-- Python `" ".join(parts)`. -/
def join_space : List String → String
  | [] => ""
  | [x] => x
  | x :: xs => x ++ " " ++ join_space xs

/-- `listPrefixEq p l` is true when `p` is an initial segment of `l`. -/
def listPrefixEq : List Char → List Char → Bool
  | [], _ => true
  | _ :: _, [] => false
  | a :: as, b :: bs => a = b && listPrefixEq as bs

/-- `listContainsSub sub l` is true when `sub` occurs contiguously in `l`. -/
def listContainsSub (sub : List Char) : List Char → Bool
  | [] => listPrefixEq sub []
  | l@(_ :: t) => listPrefixEq sub l || listContainsSub sub t

/-- Python `sub in s` on strings: substring containment. -/
def strContains (s sub : String) : Bool :=
  listContainsSub sub.data s.data

/-- Python truthiness chain `a or b or c or ...` over optional strings:
the first present, non-empty string, if any. -/
def firstTruthy : List (Option String) → Option String
  | [] => none
  | none :: rest => firstTruthy rest
  | some s :: rest => if s = "" then firstTruthy rest else some s

/-! ### `parse_course_content` (src/main.py lines 317-362)

A table cell is modelled by its stripped text plus the optional
`div.courseInfo` block; the block is modelled by the four stripped span
texts the source extracts (first `span`, `span.teachCls`, `span.teacher`,
`span.place`), each `none` when the span is absent. -/

structure CourseInfo where
  firstSpan : Option String
  teachCls : Option String
  teacher : Option String
  place : Option String
deriving Repr, DecidableEq

structure Cell where
  text : String
  courseInfo : Option CourseInfo
deriving Repr, DecidableEq

/-- Lines 317-362: compose course text from the labelled sub-elements of the
`courseInfo` block, keeping only the non-empty fields, joined by `" "`. -/
def parse_course_content (cell : Cell) : Option String :=
  match cell.courseInfo with
  | none => none
  | some ci =>
    let course_name := ci.firstSpan.getD ""
    let class_info := ci.teachCls.getD ""
    let teacher := ci.teacher.getD ""
    let location := ci.place.getD ""
    let content_parts :=
      (if course_name = "" then [] else [course_name]) ++
      (if class_info = "" then [] else [class_info]) ++
      (if teacher = "" then [] else [teacher]) ++
      (if location = "" then [] else [location])
    let content := join_space content_parts
    if content = "" then none else some content

/-! ### Errors

`Err.http code detail` is a raised `HTTPException(status_code=code, detail=detail)`;
`Err.raw msg` is any other uncaught Python exception. -/

inductive Err where
  | http (status : Nat) (detail : String)
  | raw (msg : String)
deriving Repr, DecidableEq

/-- True exactly when a result is the service-unavailable condition
(`HTTPException` with status 503). -/
def isServiceUnavailable {α : Type} : Except Err α → Bool
  | Except.error (Err.http 503 _) => true
  | _ => false

/-! ### Dropdown options and `_val_name` (src/main.py lines 522-526, 652-656)

A miniUI dropdown option is a JS object; `_val_name` probes the keys
`weekId`/`id`/`value`/`semId` for the value and `weekName`/`name`/`text`/`semName`
for the display name, via Python `or`-chains (so absent keys and empty
strings are both passed over), with `str(opt)` as the final name fallback. -/

structure MiniOpt where
  weekId : Option String := none
  id : Option String := none
  value : Option String := none
  semId : Option String := none
  weekName : Option String := none
  name : Option String := none
  text : Option String := none
  semName : Option String := none
  asStr : String := ""
deriving Repr, DecidableEq

def val_name (o : MiniOpt) : String × String :=
  ((firstTruthy [o.weekId, o.id, o.value, o.semId]).getD "",
   (firstTruthy [o.weekName, o.name, o.text, o.semName]).getD o.asStr)

/-! ### Grid parsing (src/main.py lines 568-591 and 700-717)

The rendered table is the list of its `tr` rows, each row the list of its
`td` cells.  The source iterates `enumerate(cells[1:])` and, whenever
`parse_course_content` yields a truthy string, appends
`{"period": period, "content": content}` to `week_courses[days[i]]`.
`days[i]` raises `IndexError` when the row is longer than the header, which
aborts the whole request; we model that outcome as `none`.  The per-day dict
`week_courses` is represented as the list of appended records, each tagged
with the day key it was appended under. -/

structure CourseRec where
  day : String
  period : String
  content : String
deriving Repr, DecidableEq

/-- The inner `for i, cell in enumerate(cells[1:])` loop, starting at column
index `i`.  `days[i]` is only evaluated when the cell has truthy content,
exactly as in the source. -/
def parse_cells (days : List String) (period : String) : Nat → List Cell → Option (List CourseRec)
  | _, [] => some []
  | i, c :: cs =>
    match parse_course_content c with
    | none => parse_cells days period (i + 1) cs
    | some content =>
      match days.get? i with
      | none => none
      | some day => (parse_cells days period (i + 1) cs).map (⟨day, period, content⟩ :: ·)

/-- Python `s.replace("\\n", "")`: remove every newline character. -/
def remove_newlines (s : String) : String :=
  String.mk (s.data.filter (fun c => c != Char.ofNat 10))

/-- The `for row in table.find_all("tr")[1:]` loop: a row with no cells is
skipped; otherwise its first cell (stripped, newlines removed) is the period
label and the remaining cells map to the day columns. -/
def parse_rows (days : List String) : List (List Cell) → Option (List CourseRec)
  | [] => some []
  | cells :: rest =>
    match cells with
    | [] => parse_rows days rest
    | c0 :: cs =>
      let period := (remove_newlines c0.text)
      match parse_cells days period 0 cs with
      | none => none
      | some recs => (parse_rows days rest).map (recs ++ ·)

/-- Lines 574-585: the first row's cells, minus the leading label column,
are the day labels; the remaining rows are parsed against them. -/
def parse_grid (header : List Cell) (body : List (List Cell)) : Option (List CourseRec) :=
  let days := (header.map Cell.text).drop 1
  parse_rows days body

/-! ### The per-week extraction loop (src/main.py lines 541-591, 672-723)

Each iteration's interactions with the browser are summarised by a
`WeekEnv`: whether the selector-setting script succeeded, what
`close_alert_if_present` returned (`none` = no alert; note the source skips
only on *truthy* alert text), whether the bounded wait for a `.courseInfo`
cell succeeded, and the parsed `table#table` (rows of cells), `none` when
`soup.find` found no table. -/

structure WeekEnv where
  scriptOk : Bool := true
  alertText : Option String := none
  gridRendered : Bool := true
  table : Option (List (List Cell)) := none
deriving Repr, DecidableEq

structure WeekResult where
  week_id : String
  week_name : String
  courses : List CourseRec
deriving Repr, DecidableEq

/-- One iteration of the week loop.  `Except.ok none` is `continue` (the week
is skipped); an `IndexError` escaping `parse_grid` aborts the request. -/
def process_week (env : WeekEnv) (wopt : MiniOpt) : Except Err (Option WeekResult) :=
  let (week_value, week_name) := val_name wopt
  if env.scriptOk = false then Except.ok none
  else if (env.alertText.getD "") ≠ "" then Except.ok none
  else if env.gridRendered = false then Except.ok none
  else
    match env.table with
    | none => Except.ok none
    | some [] => Except.ok none
    | some (header :: body) =>
      match parse_grid header body with
      | none => Except.error (Err.raw "IndexError: list index out of range")
      | some recs => Except.ok (some ⟨week_value, week_name, recs⟩)

/-- The week loop over the enumerated prefix of the week dataset, threading
the running index used by `enumerate` (the `gc.collect()` hint on even
indices has no observable state and is omitted). -/
def run_weeks (envs : Nat → WeekEnv) : Nat → List MiniOpt → Except Err (List WeekResult)
  | _, [] => Except.ok []
  | i, w :: rest =>
    match process_week (envs i) w with
    | Except.error e => Except.error e
    | Except.ok none => run_weeks envs (i + 1) rest
    | Except.ok (some r) => (run_weeks envs (i + 1) rest).map (r :: ·)

structure WeeksOut where
  sem_id : String
  sem_name : String
  weeks : List WeekResult
deriving Repr, DecidableEq

/-- Lines 528-601 / 658-729: validate the requested semester id against the
dropdown dataset, then extract the first `max(1, max_weeks)` weeks.
`max_weeks` is a Python `int`, hence `Int` here. -/
def get_semester_weeks_core (semOptions weekOptions : List MiniOpt) (reqSemId : String)
    (maxWeeks : Int) (envs : Nat → WeekEnv) : Except Err WeeksOut :=
  match semOptions.find? (fun o => (val_name o).1 = reqSemId) with
  | none => Except.error (Err.http 400 "无效的 sem_id")
  | some o =>
    let sem_value := (val_name o).1
    let sem_name := (val_name o).2
    let total_weeks : Nat := (max 1 maxWeeks).toNat
    (run_weeks envs 0 (weekOptions.take total_weeks)).map
      (fun ws => ⟨sem_value, sem_name, ws⟩)

/-! ### Pool and session-registry state (src/main.py lines 42-49)

`pool` is the `driver_pool` queue (head = front), `sessions` the
`drivers` dict (session id → driver id), `expiry` the `driver_expiry` dict
(session id → last-activity time), `usage` the `driver_usage_count` dict
(driver id → count).  `nextDrv`/`nextSid` supply fresh identities;
`quitted` records every driver on which `.quit()` was called. -/

def POOL_SIZE : Nat := 5
def MAX_USAGE_PER_DRIVER : Nat := 15
def IDLE_SWEEP_THRESHOLD : Nat := 300
def PRESSURE_SWEEP_THRESHOLD : Nat := 180
def MEMORY_HIGH_WATER : Nat := 400
def AUTO_RELEASE_DELAY : Nat := 240

structure RegState where
  pool : List Nat
  sessions : List (Nat × Nat)
  expiry : List (Nat × Nat)
  usage : List (Nat × Nat)
  nextDrv : Nat
  nextSid : Nat
  quitted : List Nat
deriving Repr, DecidableEq

/-- Python dict assignment `d[k] = v` on an association list. -/
def setKey : List (Nat × Nat) → Nat → Nat → List (Nat × Nat)
  | [], k, v => [(k, v)]
  | (a, b) :: t, k, v => if a = k then (k, v) :: t else (a, b) :: setKey t k v

/-- Python `driver_usage_count.get(d, 0)`. -/
def usageOf (s : RegState) (d : Nat) : Nat :=
  ((s.usage.lookup d).getD 0)

/-! ### Resource factory (src/main.py lines 88-152)

`webdriver.Chrome` with the primary option profile either succeeds, raises
`SessionNotCreatedException` (caught: one fallback attempt with the minimal
profile), or raises some other exception (uncaught).  The outcome of an
invocation is an explicit `Factory` parameter. -/

inductive FOutcome where
  | ok
  | sessionNotCreated
  | fatal
deriving Repr, DecidableEq

structure Factory where
  primary : FOutcome
  fallbackOk : Bool
deriving Repr, DecidableEq

/-- Both profiles failing (the only way `create_driver` raises). -/
def factory_fails (f : Factory) : Bool :=
  match f.primary with
  | FOutcome.ok => false
  | FOutcome.sessionNotCreated => !f.fallbackOk
  | FOutcome.fatal => true

/-- Lines 88-152: try the primary profile; on `SessionNotCreatedException`
retry once with the degraded profile.  A successful creation yields the next
fresh driver identity. -/
def create_driver (next : Nat) (f : Factory) : Except String Nat :=
  match f.primary with
  | FOutcome.ok => Except.ok next
  | FOutcome.sessionNotCreated =>
    if f.fallbackOk then Except.ok next else Except.error "SessionNotCreatedException"
  | FOutcome.fatal => Except.error "WebDriverException"

/-- Lines 165-173, the usage-ceiling check applied to the popped or created
driver `d`: if its count has reached the ceiling, quit it and create a
replacement.  The second `create_driver()` call is *not* wrapped in a
try/except, so its failure propagates raw; and line 173 resets the usage
count of the *old* driver id (`driver_id` was read at line 166, before the
reassignment). -/
def ceiling_check (s : RegState) (d : Nat) (f : Factory) : Except Err Nat × RegState :=
  if MAX_USAGE_PER_DRIVER ≤ usageOf s d then
    match create_driver s.nextDrv f with
    | Except.error e =>
      (Except.error (Err.raw e), { s with quitted := d :: s.quitted })
    | Except.ok d2 =>
      (Except.ok d2, { s with quitted := d :: s.quitted,
                              usage := setKey s.usage d 0,
                              nextDrv := s.nextDrv + 1 })
  else (Except.ok d, s)

/-- Lines 154-175: pop the idle queue, or lazily create (wrapping a creation
failure in HTTP 503), then apply the usage-ceiling check to the result. -/
def get_driver (s : RegState) (f : Factory) : Except Err Nat × RegState :=
  match s.pool with
  | d :: rest => ceiling_check { s with pool := rest } d f
  | [] =>
    match create_driver s.nextDrv f with
    | Except.ok d => ceiling_check { s with nextDrv := s.nextDrv + 1 } d f
    | Except.error e => (Except.error (Err.http 503 ("Chrome 启动失败: " ++ e)), s)

/-- Lines 177-199: clear cookies/storage (`clearOk` is whether all three
clearing calls succeed), increment the usage counter, and push back to the
queue; on any clearing failure quit the driver and push a freshly created
replacement instead (swallowing a creation failure). -/
def release_driver (s : RegState) (d : Nat) (clearOk : Bool) (f : Factory) : RegState :=
  if clearOk then
    { s with usage := setKey s.usage d (usageOf s d + 1), pool := s.pool ++ [d] }
  else
    let s1 := { s with quitted := d :: s.quitted }
    match create_driver s1.nextDrv f with
    | Except.ok d2 => { s1 with pool := s1.pool ++ [d2], nextDrv := s1.nextDrv + 1 }
    | Except.error _ => s1

/-! ### The two eviction sweeps (src/main.py lines 201-258)

Both daemons run the same body: collect the session ids whose
`now - expiry > threshold`, quit the bound drivers, and pop the ids from
both dicts.  `cleanup_drivers` uses threshold 300 every 60s;
`monitor_memory` uses threshold 180 when memory exceeds 400 MB, then shrinks
the idle queue by up to 2 if memory is still high. -/

def sweep_registry (s : RegState) (now threshold : Nat) : RegState :=
  let expired := s.expiry.filter (fun p => threshold < now - p.2)
  let isExpired := fun sid => expired.any (fun p => p.1 = sid)
  { s with sessions := s.sessions.filter (fun p => !isExpired p.1),
           expiry := s.expiry.filter (fun p => !isExpired p.1),
           quitted := ((s.sessions.filter (fun p => isExpired p.1)).map Prod.snd) ++ s.quitted }

/-- One iteration of the `cleanup_drivers` loop body (lines 201-220). -/
def cleanup_drivers_step (s : RegState) (now : Nat) : RegState :=
  sweep_registry s now IDLE_SWEEP_THRESHOLD

/-- Lines 250-256: pop and quit up to `n` idle drivers. -/
def shrink_pool (s : RegState) (n : Nat) : RegState :=
  { s with pool := s.pool.drop n,
           quitted := (s.pool.take n).reverse ++ s.quitted }

/-- One iteration of the `monitor_memory` loop body (lines 222-258), with the
two memory samples (in MB) passed explicitly. -/
def monitor_memory_step (s : RegState) (now mem1 mem2 : Nat) : RegState :=
  if MEMORY_HIGH_WATER < mem1 then
    let s1 := sweep_registry s now PRESSURE_SWEEP_THRESHOLD
    if MEMORY_HIGH_WATER < mem2 then shrink_pool s1 2 else s1
  else s

/-- Lines 291-300: the deferred one-shot timer started on captcha issuance.
After its 240s sleep it checks only `sid in drivers` — not the activity
timestamp — and, when present, quits the driver and removes both mappings. -/
def auto_release_driver (s : RegState) (sid : Nat) : RegState :=
  if s.sessions.any (fun p => p.1 = sid) then
    { s with quitted := (s.sessions.lookup sid).toList ++ s.quitted,
             sessions := s.sessions.filter (fun p => p.1 ≠ sid),
             expiry := s.expiry.filter (fun p => p.1 ≠ sid) }
  else s

/-- `driver_expiry[session_id] = time.time()` — the activity refresh done by
every successful use of a session (lines 468, 487, 594). -/
def touch_session (s : RegState) (sid : Nat) (now : Nat) : RegState :=
  { s with expiry := setKey s.expiry sid now }

/-- Lines 286-288: bind a fresh unguessable session id to the driver and
stamp the current time. -/
def register_session (s : RegState) (d : Nat) (now : Nat) : Nat × RegState :=
  (s.nextSid, { s with sessions := setKey s.sessions s.nextSid d,
                       expiry := setKey s.expiry s.nextSid now,
                       nextSid := s.nextSid + 1 })

/-! ### `/captcha` (src/main.py lines 271-315)

The browser interactions of one request are summarised by a `CaptchaEnv`:
the process memory sample taken by the guard, whether navigation plus the
bounded wait for the captcha `img` succeed, whether its `src` is a
`data:image` URL, and whether the cookie/storage clearing in a failure-path
`release_driver` succeeds. -/

structure CaptchaEnv where
  mem : Nat := 0
  pageOk : Bool := true
  srcIsDataImage : Bool := true
  clearOk : Bool := true
deriving Repr, DecidableEq

inductive CaptchaResult where
  | issued (sid : Nat)
  | failed (e : Err)
deriving Repr, DecidableEq

/-- Lines 271-315.  On the happy path the driver leaves the pool and is bound
to a fresh session id.  Any exception inside the `try` (including the 400
`HTTPException` of line 311, which `except Exception` also catches) releases
the driver back to the pool and re-raises as HTTP 500. -/
def get_captcha (s : RegState) (f : Factory) (env : CaptchaEnv) (now : Nat) :
    CaptchaResult × RegState :=
  if 500 < env.mem then
    (CaptchaResult.failed (Err.http 503 "服务器内存不足，请稍后再试"), s)
  else
    match get_driver s f with
    | (Except.error e, s1) => (CaptchaResult.failed e, s1)
    | (Except.ok d, s1) =>
      if env.pageOk = false then
        (CaptchaResult.failed (Err.http 500 "captcha page failed"),
         release_driver s1 d env.clearOk f)
      else if env.srcIsDataImage then
        let (sid, s2) := register_session s1 d now
        (CaptchaResult.issued sid, s2)
      else
        (CaptchaResult.failed (Err.http 500 "400: 未能获取验证码图片"),
         release_driver s1 d env.clearOk f)

/-! ### Default-semester inference (src/main.py lines 444-465) -/

/-- Lines 445-451: the expected current-term label, a pure function of the
wall-clock year and month. -/
def infer_target_names (year month : Nat) : List String :=
  if 9 ≤ month then
    [Nat.repr year ++ "-" ++ Nat.repr (year + 1) ++ "学年秋季学期"]
  else if 3 ≤ month then
    [Nat.repr (year - 1) ++ "-" ++ Nat.repr year ++ "学年春季学期"]
  else
    [Nat.repr (year - 1) ++ "-" ++ Nat.repr year ++ "学年秋季学期"]

/-- Lines 453-460: the first semester whose display name contains the
inferred label, falling back to the first dataset entry when none matches
(and to `None` when the dataset is empty). -/
def pick_default_semester (year month : Nat) (semOptions : List MiniOpt) : Option String :=
  match semOptions.find?
      (fun o => (infer_target_names year month).any (fun t => strContains (val_name o).2 t)) with
  | some o => some (val_name o).2
  | none =>
    match semOptions with
    | [] => none
    | o :: _ => some (val_name o).2

/-! ### Reachable states

`Step` collects every state mutation the program can perform on the shared
pool/registry state: a `/captcha` request, the activity refresh done by
`/timetable` and `/timetable/semester-weeks` when reusing a session (neither
touches the pool, and the standalone path of `/timetable/semester-weeks`
creates and quits a private driver), the two daemon loop bodies, and the
one-shot auto-release timer.  The initial states are the startup pool fill
(lines 260-265): `k ≤ 5` drivers created before the loop `break`s. -/

def init_state (k : Nat) : RegState :=
  ⟨List.range k, [], [], [], k, 0, []⟩

inductive Step : RegState → RegState → Prop where
  | captcha (f : Factory) (env : CaptchaEnv) (now : Nat) (s : RegState) :
      Step s (get_captcha s f env now).2
  | touch (sid now : Nat) (s : RegState) :
      Step s (touch_session s sid now)
  | idle_sweep (now : Nat) (s : RegState) :
      Step s (cleanup_drivers_step s now)
  | memory_sweep (now mem1 mem2 : Nat) (s : RegState) :
      Step s (monitor_memory_step s now mem1 mem2)
  | auto_release (sid : Nat) (s : RegState) :
      Step s (auto_release_driver s sid)

inductive Reachable : RegState → Prop where
  | init (k : Nat) : k ≤ POOL_SIZE → Reachable (init_state k)
  | step {s s' : RegState} : Reachable s → Step s s' → Reachable s'

/-! ## Shared lemmas about the dict primitives -/

theorem lookup_mem : ∀ {u : List (Nat × Nat)} {k v : Nat},
    List.lookup k u = some v → (k, v) ∈ u := by
  intro u
  induction u with
  | nil => intro k v h; simp [List.lookup] at h
  | cons p t ih =>
    intro k v h
    obtain ⟨a, b⟩ := p
    rw [List.lookup] at h
    by_cases hk : k = a
    · subst hk
      simp at h
      simp [h]
    · have : (k == a) = false := by simpa using hk
      rw [this] at h
      simp [ih h]

theorem lookup_setKey (u : List (Nat × Nat)) (a k v : Nat) :
    List.lookup k (setKey u a v) = if k = a then some v else List.lookup k u := by
  induction u with
  | nil =>
    by_cases hk : k = a
    · simp [setKey, List.lookup, hk]
    · have hb : (k == a) = false := by simpa using hk
      simp [setKey, List.lookup, hb, hk]
  | cons p t ih =>
    obtain ⟨x, y⟩ := p
    by_cases hx : x = a
    · subst hx
      by_cases hk : k = x
      · simp [setKey, List.lookup, hk]
      · have hb : (k == x) = false := by simpa using hk
        simp [setKey, List.lookup, hb, hk]
    · by_cases hk : k = x
      · subst hk
        simp [setKey, List.lookup, hx]
      · have hb : (k == x) = false := by simpa using hk
        simp [setKey, List.lookup, hx, hb, ih]

/-! ## C1: the one-shot auto-release timer versus repeated touch -/

/-- **C1.** The claim says a session whose every use refreshes its
last-activity timestamp is never destroyed by any background mechanism,
including the deferred one-shot timer started at registration.  The code
violates this: `auto_release_driver` checks only `sid in drivers` when it
fires.  Here a session registered at time 0 and touched at times 100 and
200 (so 40 seconds idle, far below both sweep thresholds, and indeed kept by
both sweeps at time 240) is nevertheless destroyed — mapping deleted and
driver quit — when the timer fires at time 240. -/
theorem c1_one_shot_timer_destroys_touched_session :
    (auto_release_driver (touch_session (touch_session
        (RegState.mk [] [(0, 5)] [(0, 0)] [] 6 1 []) 0 100) 0 200) 0).sessions = []
    ∧ (auto_release_driver (touch_session (touch_session
        (RegState.mk [] [(0, 5)] [(0, 0)] [] 6 1 []) 0 100) 0 200) 0).quitted = [5]
    ∧ (cleanup_drivers_step (touch_session (touch_session
        (RegState.mk [] [(0, 5)] [(0, 0)] [] 6 1 []) 0 100) 0 200) 240).sessions = [(0, 5)]
    ∧ (monitor_memory_step (touch_session (touch_session
        (RegState.mk [] [(0, 5)] [(0, 0)] [] 6 1 []) 0 100) 0 200) 240 450 450).sessions = [(0, 5)]
    ∧ 240 - (List.lookup 0 (touch_session (touch_session
        (RegState.mk [] [(0, 5)] [(0, 0)] [] 6 1 []) 0 100) 0 200).expiry).getD 0
        < PRESSURE_SWEEP_THRESHOLD := by
  decide

/-! ## C4: sweep threshold semantics -/

theorem sweep_registry_expiry_mem (s : RegState) (now th : Nat) (p : Nat × Nat)
    (hnd : (s.expiry.map Prod.fst).Nodup) :
    p ∈ (sweep_registry s now th).expiry ↔ p ∈ s.expiry ∧ now - p.2 ≤ th := by
  unfold sweep_registry
  constructor
  · intro h
    have h' := List.mem_filter.1 h
    refine ⟨h'.1, ?_⟩
    by_contra hlt
    have hstale : th < now - p.2 := Nat.not_le.1 hlt
    have hmem : p ∈ s.expiry.filter (fun q => decide (th < now - q.2)) :=
      List.mem_filter.2 ⟨h'.1, by simpa using hstale⟩
    have h2 := h'.2
    simp only [Bool.not_eq_true', List.any_eq_false, decide_eq_false_iff_not] at h2
    exact h2 p hmem (by simp)
  · rintro ⟨hp, hle⟩
    refine List.mem_filter.2 ⟨hp, ?_⟩
    simp only [Bool.not_eq_true', List.any_eq_false, decide_eq_false_iff_not]
    intro q hq hk
    have hq' := List.mem_filter.1 hq
    have hqe : q = p := List.inj_on_of_nodup_map hnd hq'.1 hp (of_decide_eq_true hk)
    subst hqe
    have hlt : th < now - q.2 := by simpa using hq'.2
    exact absurd hlt (Nat.not_lt.2 hle)

theorem sweep_registry_sessions_mem (s : RegState) (now th : Nat) (q : Nat × Nat) :
    q ∈ (sweep_registry s now th).sessions ↔
      q ∈ s.sessions ∧ ∀ p ∈ s.expiry, p.1 = q.1 → now - p.2 ≤ th := by
  unfold sweep_registry
  constructor
  · intro h
    have h' := List.mem_filter.1 h
    refine ⟨h'.1, ?_⟩
    intro p hp hk
    by_contra hlt
    have hstale : th < now - p.2 := Nat.not_le.1 hlt
    have hmem : p ∈ s.expiry.filter (fun r => decide (th < now - r.2)) :=
      List.mem_filter.2 ⟨hp, by simpa using hstale⟩
    have h2 := h'.2
    simp only [Bool.not_eq_true', List.any_eq_false, decide_eq_false_iff_not] at h2
    exact h2 p hmem (decide_eq_true hk)
  · rintro ⟨hq, hall⟩
    refine List.mem_filter.2 ⟨hq, ?_⟩
    simp only [Bool.not_eq_true', List.any_eq_false, decide_eq_false_iff_not]
    intro p hp hk
    have hp' := List.mem_filter.1 hp
    have hlt : th < now - p.2 := by simpa using hp'.2
    exact absurd hlt (Nat.not_lt.2 (hall p hp'.1 (of_decide_eq_true hk)))

/-- **C4.** `sweep(threshold)` keeps exactly the sessions whose age is at
most the threshold (removal iff `now - last_activity > threshold`), for both
the `driver_expiry` and the `drivers` mappings; and concretely, a session
aged 200s survives the idle sweep (threshold 300) but is evicted — mapping
deleted, driver quit — by the memory-pressure sweep (threshold 180). -/
theorem c4_sweep_removes_exactly_stale_sessions :
    (∀ (s : RegState) (now th : Nat) (p : Nat × Nat),
        (s.expiry.map Prod.fst).Nodup →
        (p ∈ (sweep_registry s now th).expiry ↔ p ∈ s.expiry ∧ now - p.2 ≤ th))
    ∧ (∀ (s : RegState) (now th : Nat) (q : Nat × Nat),
        q ∈ (sweep_registry s now th).sessions ↔
          q ∈ s.sessions ∧ ∀ p ∈ s.expiry, p.1 = q.1 → now - p.2 ≤ th)
    ∧ (cleanup_drivers_step (RegState.mk [] [(1, 77)] [(1, 40)] [] 78 2 []) 240).sessions
        = [(1, 77)]
    ∧ (cleanup_drivers_step (RegState.mk [] [(1, 77)] [(1, 40)] [] 78 2 []) 240).expiry
        = [(1, 40)]
    ∧ (monitor_memory_step (RegState.mk [] [(1, 77)] [(1, 40)] [] 78 2 []) 240 450 450).sessions
        = []
    ∧ (monitor_memory_step (RegState.mk [] [(1, 77)] [(1, 40)] [] 78 2 []) 240 450 450).expiry
        = []
    ∧ (monitor_memory_step (RegState.mk [] [(1, 77)] [(1, 40)] [] 78 2 []) 240 450 450).quitted
        = [77] :=
  ⟨sweep_registry_expiry_mem, sweep_registry_sessions_mem,
   by decide, by decide, by decide, by decide, by decide⟩

/-- Witness for C4: the general parts applied to a concrete registry holding
two sessions, one 250 seconds old and one 10 seconds old, swept with
threshold 180 at time 300. -/
theorem c4_witness :
    ((7, 50) ∈ (sweep_registry (RegState.mk [] [(7, 3), (8, 4)] [(7, 50), (8, 290)] [] 5 9 [])
        300 180).expiry ↔ False)
    ∧ ((8, 4) ∈ (sweep_registry (RegState.mk [] [(7, 3), (8, 4)] [(7, 50), (8, 290)] [] 5 9 [])
        300 180).sessions ↔ True) := by
  constructor
  · rw [c4_sweep_removes_exactly_stale_sessions.1
      (RegState.mk [] [(7, 3), (8, 4)] [(7, 50), (8, 290)] [] 5 9 []) 300 180 (7, 50)
      (by decide)]
    simp
  · rw [c4_sweep_removes_exactly_stale_sessions.2.1
      (RegState.mk [] [(7, 3), (8, 4)] [(7, 50), (8, 290)] [] 5 9 []) 300 180 (8, 4)]
    constructor
    · intro _; trivial
    · intro _
      exact ⟨by decide, by decide⟩

/-! ## C7: course text composition -/

theorem append_ne_empty_left (a b : String) (h : a ≠ "") : a ++ b ≠ "" := by
  intro hc
  have h2 := congrArg String.data hc
  simp [String.data_append] at h2
  exact h (String.ext h2.1)

theorem parts_eq_filter (n k t l : String) :
    (if n = "" then [] else [n]) ++ (if k = "" then [] else [k]) ++
      (if t = "" then [] else [t]) ++ (if l = "" then [] else [l])
      = [n, k, t, l].filter (fun x => x ≠ "") := by
  by_cases hn : n = "" <;> by_cases hk : k = "" <;> by_cases ht : t = "" <;>
    by_cases hl : l = "" <;> simp [hn, hk, ht, hl]

theorem join_space_ne_empty (xs : List String) (hxs : xs ≠ [])
    (h : ∀ x ∈ xs, x ≠ "") : join_space xs ≠ "" := by
  cases xs with
  | nil => exact absurd rfl hxs
  | cons a as =>
    cases as with
    | nil => simpa [join_space] using h a (by simp)
    | cons b bs =>
      simp only [join_space]
      exact append_ne_empty_left _ _ (append_ne_empty_left _ _ (h a (by simp)))

/-- **C7.** For every cell: no `courseInfo` block yields no record, and for
every block the composed text is exactly the single-space join of the
non-empty fields among name, class-section, teacher and location, in that
order (`none` when all four are empty).  Concretely: all four fields empty
yields no record, a block with only a name and a location composes to
`name ++ " " ++ location`, and a block with all four fields composes to all
four joined by single spaces. -/
theorem c7_course_text_composition :
    (∀ c : Cell, c.courseInfo = none → parse_course_content c = none)
    ∧ (∀ (c : Cell) (ci : CourseInfo), c.courseInfo = some ci →
        parse_course_content c =
          (if ([ci.firstSpan.getD "", ci.teachCls.getD "", ci.teacher.getD "",
                ci.place.getD ""].filter (fun x => x ≠ "")) = []
           then none
           else some (join_space ([ci.firstSpan.getD "", ci.teachCls.getD "",
                ci.teacher.getD "", ci.place.getD ""].filter (fun x => x ≠ "")))))
    ∧ (∀ (c : Cell) (ci : CourseInfo), c.courseInfo = some ci →
        ci.firstSpan.getD "" = "" → ci.teachCls.getD "" = "" →
        ci.teacher.getD "" = "" → ci.place.getD "" = "" →
        parse_course_content c = none)
    ∧ (∀ (c : Cell) (ci : CourseInfo) (n l : String), c.courseInfo = some ci →
        ci.firstSpan = some n → n ≠ "" →
        ci.teachCls.getD "" = "" → ci.teacher.getD "" = "" →
        ci.place = some l → l ≠ "" →
        parse_course_content c = some (n ++ " " ++ l))
    ∧ (∀ (c : Cell) (ci : CourseInfo) (n k t l : String), c.courseInfo = some ci →
        ci.firstSpan = some n → n ≠ "" → ci.teachCls = some k → k ≠ "" →
        ci.teacher = some t → t ≠ "" → ci.place = some l → l ≠ "" →
        parse_course_content c = some (n ++ " " ++ k ++ " " ++ t ++ " " ++ l)) := by
  refine ⟨?_, ?_, ?_, ?_, ?_⟩
  · intro c hc
    simp [parse_course_content, hc]
  · intro c ci hc
    have hparts := parts_eq_filter (ci.firstSpan.getD "") (ci.teachCls.getD "")
      (ci.teacher.getD "") (ci.place.getD "")
    simp only [parse_course_content, hc]
    rw [hparts]
    by_cases hempty : ([ci.firstSpan.getD "", ci.teachCls.getD "", ci.teacher.getD "",
        ci.place.getD ""].filter (fun x => x ≠ "")) = []
    · rw [hempty]
      simp [join_space]
    · rw [if_neg hempty]
      have hne := join_space_ne_empty _ hempty
        (fun x hx => by simpa using (List.mem_filter.1 hx).2)
      rw [if_neg hne]
  · intro c ci hc h1 h2 h3 h4
    simp [parse_course_content, hc, h1, h2, h3, h4, join_space]
  · intro c ci n l hc hn hnne hk ht hl hlne
    have hne : n ++ " " ++ l ≠ "" :=
      append_ne_empty_left _ _ (append_ne_empty_left _ _ hnne)
    simp [parse_course_content, hc, hn, hk, ht, hl, hnne, hlne, join_space, hne]
  · intro c ci n k t l hc hn hnne hk hkne ht htne hl hlne
    have hne : n ++ " " ++ (k ++ " " ++ (t ++ " " ++ l)) ≠ "" :=
      append_ne_empty_left _ _ (append_ne_empty_left _ _ hnne)
    simp [parse_course_content, hc, hn, hk, ht, hl, hnne, hkne, htne, hlne, join_space, hne]
    simp [String.append_assoc]

/-- Witness for C7: the universal composition rule applied to a
name-and-class-section-only block, plus the name-and-location-only and
all-empty cases on concrete cells. -/
theorem c7_witness :
    parse_course_content ⟨"", some ⟨some "高数", some "2班", none, none⟩⟩
      = some ("高数" ++ " " ++ "2班")
    ∧ parse_course_content ⟨"", some ⟨some "高数", none, none, some "A101"⟩⟩
      = some ("高数" ++ " " ++ "A101")
    ∧ parse_course_content ⟨"", some ⟨some "", some "", none, none⟩⟩ = none := by
  refine ⟨?_, ?_, ?_⟩
  · rw [c7_course_text_composition.2.1 _ ⟨some "高数", some "2班", none, none⟩ rfl]
    decide
  · exact c7_course_text_composition.2.2.2.1 _ ⟨some "高数", none, none, some "A101"⟩
      "高数" "A101" rfl rfl (by decide) rfl rfl rfl (by decide)
  · exact c7_course_text_composition.2.2.1 _ ⟨some "", some "", none, none⟩ rfl rfl rfl rfl rfl

/-! ## C8: default-semester inference -/

theorem find?_append_first {α : Type} (p : α → Bool) (pre : List α) (o : α) (post : List α)
    (hpre : ∀ x ∈ pre, p x = false) (ho : p o = true) :
    List.find? p (pre ++ o :: post) = some o := by
  induction pre with
  | nil => simp [List.find?_cons, ho]
  | cons a tl ih =>
    have ha : p a = false := hpre a (by simp)
    simp only [List.cons_append, List.find?_cons, ha]
    exact ih (fun x hx => hpre x (by simp [hx]))

/-- **C8.** The inferred current-term label is a pure function of year and
month with the three claimed branches; the default semester is the first
dataset entry whose display name contains the label, falling back to the
first entry when none matches; and with month 10 of 2024 and a dataset
containing `2024-2025学年秋季学期`, that semester is selected. -/
theorem c8_default_semester_inference :
    (∀ year month : Nat, 9 ≤ month →
        infer_target_names year month
          = [Nat.repr year ++ "-" ++ Nat.repr (year + 1) ++ "学年秋季学期"])
    ∧ (∀ year month : Nat, 3 ≤ month → month < 9 →
        infer_target_names year month
          = [Nat.repr (year - 1) ++ "-" ++ Nat.repr year ++ "学年春季学期"])
    ∧ (∀ year month : Nat, month < 3 →
        infer_target_names year month
          = [Nat.repr (year - 1) ++ "-" ++ Nat.repr year ++ "学年秋季学期"])
    ∧ (∀ (year month : Nat) (pre : List MiniOpt) (o : MiniOpt) (post : List MiniOpt),
        (∀ o' ∈ pre, (infer_target_names year month).any
            (fun t => strContains (val_name o').2 t) = false) →
        (infer_target_names year month).any (fun t => strContains (val_name o).2 t) = true →
        pick_default_semester year month (pre ++ o :: post) = some (val_name o).2)
    ∧ (∀ (year month : Nat) (o : MiniOpt) (rest : List MiniOpt),
        (∀ o' ∈ o :: rest, (infer_target_names year month).any
            (fun t => strContains (val_name o').2 t) = false) →
        pick_default_semester year month (o :: rest) = some (val_name o).2)
    ∧ pick_default_semester 2024 10
        [{ id := some "s0", name := some "2023-2024学年春季学期" },
         { id := some "s1", name := some "2024-2025学年秋季学期" }]
        = some "2024-2025学年秋季学期" := by
  refine ⟨?_, ?_, ?_, ?_, ?_, ?_⟩
  · intro year month h
    simp [infer_target_names, h]
  · intro year month h3 h9
    have h9' : ¬ 9 ≤ month := by omega
    simp [infer_target_names, h9', h3]
  · intro year month h3
    have h9' : ¬ 9 ≤ month := by omega
    have h3' : ¬ 3 ≤ month := by omega
    simp [infer_target_names, h9', h3']
  · intro year month pre o post hpre ho
    unfold pick_default_semester
    rw [find?_append_first _ pre o post hpre ho]
  · intro year month o rest hall
    unfold pick_default_semester
    rw [List.find?_eq_none.2 (fun x hx => by simp [hall x hx])]
  · decide

/-- Witness for C8: the autumn-branch label and the first-match selection
applied at month 10 of 2024 with a two-entry dataset. -/
theorem c8_witness :
    infer_target_names 2024 10
      = [Nat.repr 2024 ++ "-" ++ Nat.repr (2024 + 1) ++ "学年秋季学期"]
    ∧ pick_default_semester 2024 10
        ([{ id := some "s0", name := some "2023-2024学年春季学期" }] ++
          { id := some "s1", name := some "2024-2025学年秋季学期" } :: [])
      = some (val_name { id := some "s1", name := some "2024-2025学年秋季学期" }).2 :=
  ⟨c8_default_semester_inference.1 2024 10 (by decide),
   c8_default_semester_inference.2.2.2.1 2024 10
     [{ id := some "s0", name := some "2023-2024学年春季学期" }]
     { id := some "s1", name := some "2024-2025学年秋季学期" } []
     (by decide) (by decide)⟩


/-! ## C2 and C3: the usage ceiling and acquire-failure reporting -/

/-- Well-formedness of the usage dict: every recorded driver id was actually
created (ids below the freshness counter). -/
def UsageWF (s : RegState) : Prop :=
  ∀ p ∈ s.usage, p.1 < s.nextDrv

theorem lookup_big_none {us : List (Nat × Nat)} {n : Nat} (h : ∀ p ∈ us, p.1 < n) :
    List.lookup n us = none := by
  cases hl : List.lookup n us with
  | none => rfl
  | some v => exact absurd (h _ (lookup_mem hl)) (lt_irrefl _)

theorem usageOf_pos_mem {s : RegState} {d : Nat} (h : 0 < usageOf s d) :
    ∃ v, (d, v) ∈ s.usage := by
  unfold usageOf at h
  cases hl : List.lookup d s.usage with
  | none => rw [hl] at h; simp at h
  | some v => exact ⟨v, lookup_mem hl⟩

theorem create_driver_ok_of {f : Factory} (n : Nat) (h : factory_fails f = false) :
    create_driver n f = Except.ok n := by
  cases hp : f.primary <;> simp [create_driver, factory_fails, hp] at h ⊢
  simp [h]

theorem create_driver_err_of {f : Factory} (n : Nat) (h : factory_fails f = true) :
    ∃ e, create_driver n f = Except.error e := by
  cases hp : f.primary <;> simp [create_driver, factory_fails, hp] at h ⊢
  simp [h]

theorem create_driver_ok_eq {n d : Nat} {f : Factory}
    (h : create_driver n f = Except.ok d) : d = n := by
  cases hp : f.primary <;> simp [create_driver, hp] at h
  · exact h.symm
  · split at h
    · simpa using (Except.ok.inj h).symm
    · simp at h

theorem ceiling_check_of_lt {s : RegState} {d : Nat} (f : Factory)
    (h : usageOf s d < MAX_USAGE_PER_DRIVER) :
    ceiling_check s d f = (Except.ok d, s) := by
  simp [ceiling_check, Nat.not_le.2 h]

theorem ceiling_check_of_ge_ok {s : RegState} {d : Nat} {f : Factory}
    (h : MAX_USAGE_PER_DRIVER ≤ usageOf s d) (hf : factory_fails f = false) :
    ceiling_check s d f
      = (Except.ok s.nextDrv,
         { s with quitted := d :: s.quitted,
                  usage := setKey s.usage d 0,
                  nextDrv := s.nextDrv + 1 }) := by
  simp [ceiling_check, h, create_driver_ok_of s.nextDrv hf]

theorem ceiling_check_of_ge_err {s : RegState} {d : Nat} {f : Factory}
    (h : MAX_USAGE_PER_DRIVER ≤ usageOf s d) (hf : factory_fails f = true) :
    ∃ e, ceiling_check s d f
      = (Except.error (Err.raw e), { s with quitted := d :: s.quitted }) := by
  obtain ⟨e, hc⟩ := create_driver_err_of (f := f) s.nextDrv hf
  exact ⟨e, by simp [ceiling_check, h, hc]⟩


/-- **C2.** `release` increments the usage counter by exactly one per
successful release; `acquire` never returns a driver whose post-state usage
count has reached the ceiling of 15; and when the popped driver has reached
the ceiling and the factory can create, `acquire` quits it and returns a
freshly created substitute whose counter is 0. -/
theorem c2_usage_ceiling :
    (∀ (s : RegState) (d : Nat) (f : Factory),
        usageOf (release_driver s d true f) d = usageOf s d + 1)
    ∧ (∀ (s : RegState) (f : Factory) (d : Nat),
        UsageWF s → (get_driver s f).1 = Except.ok d →
        usageOf (get_driver s f).2 d < MAX_USAGE_PER_DRIVER)
    ∧ (∀ (s : RegState) (f : Factory) (d : Nat) (rest : List Nat),
        UsageWF s → s.pool = d :: rest → MAX_USAGE_PER_DRIVER ≤ usageOf s d →
        factory_fails f = false →
        (get_driver s f).1 = Except.ok s.nextDrv
        ∧ s.nextDrv ≠ d
        ∧ d ∈ (get_driver s f).2.quitted
        ∧ usageOf (get_driver s f).2 s.nextDrv = 0) := by
  refine ⟨?_, ?_, ?_⟩
  · intro s d f
    simp [release_driver, usageOf, lookup_setKey]
  · intro s f d hwf hok
    obtain ⟨pl, ss, ex, us, nd, ns, qt⟩ := s
    have hwf' : ∀ p ∈ us, p.1 < nd := hwf
    cases pl with
    | nil =>
      cases hc : create_driver nd f with
      | error e =>
        simp [get_driver, hc] at hok
      | ok d0 =>
        have hd0 := create_driver_ok_eq hc
        rw [hd0] at hc
        have h0 : usageOf (RegState.mk [] ss ex us (nd + 1) ns qt) nd = 0 := by
          simp [usageOf, lookup_big_none hwf']
        have hcc := ceiling_check_of_lt (s := RegState.mk [] ss ex us (nd + 1) ns qt)
          (d := nd) f (by rw [h0]; decide)
        have hgd : get_driver (RegState.mk [] ss ex us nd ns qt) f
            = (Except.ok nd, RegState.mk [] ss ex us (nd + 1) ns qt) := by
          simp [get_driver, hc, hcc]
        rw [hgd] at hok ⊢
        simp at hok
        subst hok
        rw [h0]
        decide
    | cons d0 rest =>
      by_cases hceil : MAX_USAGE_PER_DRIVER
          ≤ usageOf (RegState.mk rest ss ex us nd ns qt) d0
      · by_cases hf : factory_fails f
        · obtain ⟨e, hcc⟩ := ceiling_check_of_ge_err hceil hf
          have hgd : (get_driver (RegState.mk (d0 :: rest) ss ex us nd ns qt) f).1
              = Except.error (Err.raw e) := by
            simp [get_driver, hcc]
          rw [hgd] at hok
          simp at hok
        · have hf' : factory_fails f = false := by simpa using hf
          have hcc := ceiling_check_of_ge_ok hceil hf'
          have hgd : get_driver (RegState.mk (d0 :: rest) ss ex us nd ns qt) f
              = (Except.ok nd, RegState.mk rest ss ex (setKey us d0 0) (nd + 1) ns
                  (d0 :: qt)) := by
            simp [get_driver, hcc]
          rw [hgd] at hok ⊢
          simp at hok
          subst hok
          rw [usageOf]
          simp only [lookup_setKey]
          by_cases hd : nd = d0
          · simp [hd]
            decide
          · simp [hd, lookup_big_none hwf']
            decide
      · have hcc := ceiling_check_of_lt (s := RegState.mk rest ss ex us nd ns qt)
          (d := d0) f (Nat.not_le.1 hceil)
        have hgd : get_driver (RegState.mk (d0 :: rest) ss ex us nd ns qt) f
            = (Except.ok d0, RegState.mk rest ss ex us nd ns qt) := by
          simp [get_driver, hcc]
        rw [hgd] at hok ⊢
        simp at hok
        subst hok
        exact Nat.not_le.1 hceil
  · intro s f d rest hwf hp hceil hf
    obtain ⟨pl, ss, ex, us, nd, ns, qt⟩ := s
    have hwf' : ∀ p ∈ us, p.1 < nd := hwf
    simp only at hp
    subst hp
    have hceil' : MAX_USAGE_PER_DRIVER ≤ usageOf (RegState.mk rest ss ex us nd ns qt) d := by
      simpa [usageOf] using hceil
    have hcc := ceiling_check_of_ge_ok hceil' hf
    have hgd : get_driver (RegState.mk (d :: rest) ss ex us nd ns qt) f
        = (Except.ok nd, RegState.mk rest ss ex (setKey us d 0) (nd + 1) ns (d :: qt)) := by
      simp [get_driver, hcc]
    have hdlt : d < nd := by
      obtain ⟨v, hv⟩ := usageOf_pos_mem (s := RegState.mk (d :: rest) ss ex us nd ns qt)
        (d := d) (Nat.lt_of_lt_of_le (by decide) hceil)
      exact hwf' _ hv
    refine ⟨by rw [hgd], Nat.ne_of_gt hdlt, by rw [hgd]; simp, ?_⟩
    rw [hgd]
    rw [usageOf]
    simp only [lookup_setKey]
    have hd : ¬ nd = d := by omega
    simp [hd, lookup_big_none hwf']

/-- Witness for C2: the three parts applied to concrete pool states — a
release of driver 3 with prior count 4, an acquire popping driver 7 with
count 15 (replaced by fresh driver 8), and the ceiling-substitution facts
for the same state. -/
theorem c2_witness :
    usageOf (release_driver (RegState.mk [] [] [] [(3, 4)] 9 0 []) 3 true
        (Factory.mk FOutcome.ok true)) 3
      = usageOf (RegState.mk [] [] [] [(3, 4)] 9 0 []) 3 + 1
    ∧ usageOf (get_driver (RegState.mk [7] [] [] [(7, 15)] 8 0 [])
        (Factory.mk FOutcome.ok true)).2 8 < MAX_USAGE_PER_DRIVER
    ∧ (get_driver (RegState.mk [7] [] [] [(7, 15)] 8 0 [])
        (Factory.mk FOutcome.ok true)).1 = Except.ok 8
    ∧ 7 ∈ (get_driver (RegState.mk [7] [] [] [(7, 15)] 8 0 [])
        (Factory.mk FOutcome.ok true)).2.quitted := by
  have h2 := c2_usage_ceiling.2.1 (RegState.mk [7] [] [] [(7, 15)] 8 0 [])
    (Factory.mk FOutcome.ok true) 8 (by intro p hp; fin_cases hp; decide) rfl
  have h3 := c2_usage_ceiling.2.2 (RegState.mk [7] [] [] [(7, 15)] 8 0 [])
    (Factory.mk FOutcome.ok true) 7 [] (by intro p hp; fin_cases hp; decide) rfl
    (by decide) rfl
  exact ⟨c2_usage_ceiling.1 (RegState.mk [] [] [] [(3, 4)] 9 0 []) 3
    (Factory.mk FOutcome.ok true), h2, h3.1, h3.2.2.1⟩

/-- **C3 counterexample.** The claim says every acquire failure caused by
factory-creation failure is reported as service-unavailable, on every path
including the usage-ceiling replacement path.  But with a pooled driver at
the ceiling and a failing factory, `get_driver` raises the factory's raw
exception (the `create_driver()` call at line 172 is outside any
try/except): the request fails, and not with the service-unavailable
condition. -/
theorem c3_counterexample :
    (get_driver (RegState.mk [7] [] [] [(7, 15)] 8 0 [])
        (Factory.mk FOutcome.fatal false)).1
      = Except.error (Err.raw "WebDriverException")
    ∧ isServiceUnavailable
        (get_driver (RegState.mk [7] [] [] [(7, 15)] 8 0 [])
          (Factory.mk FOutcome.fatal false)).1
      = false :=
  ⟨rfl, rfl⟩

/-- When the factory can create, the ceiling check always hands out a
driver. -/
theorem ceiling_check_isOk {s : RegState} {d : Nat} {f : Factory}
    (hf : factory_fails f = false) : (ceiling_check s d f).1.isOk = true := by
  by_cases h : MAX_USAGE_PER_DRIVER ≤ usageOf s d
  · rw [ceiling_check_of_ge_ok h hf]
    rfl
  · rw [ceiling_check_of_lt f (Nat.not_le.1 h)]
    rfl

/-- **C3 as amended.** `acquire` fails only when factory creation fails.  On
the lazy-creation path (empty idle queue) such a failure is reported as
service-unavailable (HTTP 503); on the usage-ceiling replacement path it
propagates as a raw unhandled exception, which is not the
service-unavailable condition. -/
theorem c3_amended_failure_reporting :
    (∀ (s : RegState) (f : Factory),
        (get_driver s f).1.isOk = false → factory_fails f = true)
    ∧ (∀ (s : RegState) (f : Factory), s.pool = [] →
        (get_driver s f).1.isOk = false →
        isServiceUnavailable (get_driver s f).1 = true)
    ∧ (∀ (s : RegState) (f : Factory) (d : Nat) (rest : List Nat),
        s.pool = d :: rest → MAX_USAGE_PER_DRIVER ≤ usageOf s d → factory_fails f = true →
        (get_driver s f).1.isOk = false
        ∧ isServiceUnavailable (get_driver s f).1 = false) := by
  refine ⟨?_, ?_, ?_⟩
  · intro s f h
    by_cases hf : factory_fails f
    · exact hf
    · exfalso
      have hf' : factory_fails f = false := by simpa using hf
      obtain ⟨pl, ss, ex, us, nd, ns, qt⟩ := s
      cases pl with
      | nil =>
        have hc := create_driver_ok_of (f := f) nd hf'
        simp [get_driver, hc, ceiling_check_isOk hf'] at h
      | cons d0 rest =>
        simp [get_driver, ceiling_check_isOk hf'] at h
  · intro s f hp h
    obtain ⟨pl, ss, ex, us, nd, ns, qt⟩ := s
    simp only at hp
    subst hp
    cases hc : create_driver nd f with
    | error e =>
      have hgd : (get_driver (RegState.mk [] ss ex us nd ns qt) f).1
          = Except.error (Err.http 503 ("Chrome 启动失败: " ++ e)) := by
        simp [get_driver, hc]
      rw [hgd]
      rfl
    | ok d0 =>
      exfalso
      have hff : factory_fails f = false := by
        by_cases hf : factory_fails f
        · obtain ⟨e, he⟩ := create_driver_err_of (f := f) nd hf
          rw [he] at hc
          simp at hc
        · simpa using hf
      have hd0 := create_driver_ok_eq hc
      rw [hd0] at hc
      simp [get_driver, hc, ceiling_check_isOk hff] at h
  · intro s f d rest hp hceil hf
    obtain ⟨pl, ss, ex, us, nd, ns, qt⟩ := s
    simp only at hp
    subst hp
    have hceil' : MAX_USAGE_PER_DRIVER ≤ usageOf (RegState.mk rest ss ex us nd ns qt) d := by
      simpa [usageOf] using hceil
    obtain ⟨e, hcc⟩ := ceiling_check_of_ge_err hceil' hf
    have hgd : (get_driver (RegState.mk (d :: rest) ss ex us nd ns qt) f).1
        = Except.error (Err.raw e) := by
      simp [get_driver, hcc]
    rw [hgd]
    exact ⟨rfl, rfl⟩

/-- Witness for C3's amended theorem: the lazy-creation path reports 503 on
an empty pool with a failing factory, and the replacement path raises a
non-503 failure for a pooled driver at the ceiling. -/
theorem c3_amended_witness :
    isServiceUnavailable
      (get_driver (RegState.mk [] [] [] [] 4 0 []) (Factory.mk FOutcome.fatal false)).1 = true
    ∧ (get_driver (RegState.mk [7] [] [] [(7, 15)] 8 0 [])
        (Factory.mk FOutcome.sessionNotCreated false)).1.isOk = false
    ∧ isServiceUnavailable
        (get_driver (RegState.mk [7] [] [] [(7, 15)] 8 0 [])
          (Factory.mk FOutcome.sessionNotCreated false)).1 = false := by
  have h2 := c3_amended_failure_reporting.2.2 (RegState.mk [7] [] [] [(7, 15)] 8 0 [])
    (Factory.mk FOutcome.sessionNotCreated false) 7 [] rfl (by decide) rfl
  exact ⟨c3_amended_failure_reporting.2.1 (RegState.mk [] [] [] [] 4 0 [])
    (Factory.mk FOutcome.fatal false) rfl rfl, h2.1, h2.2⟩

/-! ## C10: totality and day assignment of grid parsing -/

theorem parse_cells_isSome (days : List String) (period : String) :
    ∀ (cs : List Cell) (i : Nat), i + cs.length ≤ days.length →
    (parse_cells days period i cs).isSome := by
  intro cs
  induction cs with
  | nil =>
    intro i h
    simp [parse_cells]
  | cons c cs ih =>
    intro i h
    simp only [parse_cells]
    cases hpc : parse_course_content c with
    | none =>
      exact ih (i + 1) (by simp at h ⊢; omega)
    | some content =>
      have hi : i < days.length := by simp at h; omega
      cases hd : days.get? i with
      | none =>
        exact absurd (List.get?_eq_none.1 hd) (Nat.not_le.2 hi)
      | some day =>
        have h2 := ih (i + 1) (by simp at h ⊢; omega)
        cases hrec : parse_cells days period (i + 1) cs with
        | none => rw [hrec] at h2; simp at h2
        | some out => simp [hrec]

theorem parse_cells_mem (days : List String) (period : String) :
    ∀ (cs : List Cell) (i j : Nat) (out : List CourseRec) (cell : Cell) (content : String),
    parse_cells days period i cs = some out →
    cs.get? j = some cell → parse_course_content cell = some content →
    ∃ day, days.get? (i + j) = some day ∧
      (⟨day, period, content⟩ : CourseRec) ∈ out := by
  intro cs
  induction cs with
  | nil =>
    intro i j out cell content _ hj
    simp at hj
  | cons c cs ih =>
    intro i j out cell content h hj hc
    cases j with
    | zero =>
      have hcell : c = cell := by simpa using hj
      subst hcell
      simp only [parse_cells, hc] at h
      cases hd : days.get? i with
      | none => rw [hd] at h; simp at h
      | some day =>
        rw [hd] at h
        cases hrec : parse_cells days period (i + 1) cs with
        | none => rw [hrec] at h; simp at h
        | some out' =>
          rw [hrec] at h
          simp at h
          exact ⟨day, by simpa using hd, by rw [← h]; simp⟩
    | succ j =>
      have hj' : cs.get? j = some cell := by simpa using hj
      simp only [parse_cells] at h
      cases hpc : parse_course_content c with
      | none =>
        rw [hpc] at h
        obtain ⟨day, hd, hm⟩ := ih (i + 1) j out cell content h hj' hc
        exact ⟨day, by rw [← hd]; congr 1; omega, hm⟩
      | some content0 =>
        rw [hpc] at h
        cases hd0 : days.get? i with
        | none => rw [hd0] at h; simp at h
        | some day0 =>
          rw [hd0] at h
          cases hrec : parse_cells days period (i + 1) cs with
          | none => rw [hrec] at h; simp at h
          | some out' =>
            rw [hrec] at h
            simp at h
            obtain ⟨day, hd, hm⟩ := ih (i + 1) j out' cell content hrec hj' hc
            refine ⟨day, by rw [← hd]; congr 1; omega, ?_⟩
            rw [← h]
            simp [hm]

theorem parse_rows_isSome (days : List String) :
    ∀ (body : List (List Cell)), (∀ row ∈ body, row.length ≤ days.length + 1) →
    (parse_rows days body).isSome := by
  intro body
  induction body with
  | nil =>
    intro _
    simp [parse_rows]
  | cons r rest ih =>
    intro h
    cases r with
    | nil =>
      simpa [parse_rows] using ih (fun row hrow => h row (by simp [hrow]))
    | cons c0 cs =>
      simp only [parse_rows]
      have hlen : 0 + cs.length ≤ days.length := by
        have := h (c0 :: cs) (by simp)
        simp at this
        omega
      have h1 := parse_cells_isSome days (remove_newlines c0.text) cs 0 hlen
      cases hpc : parse_cells days (remove_newlines c0.text) 0 cs with
      | none => rw [hpc] at h1; simp at h1
      | some recs =>
        have h2 := ih (fun row hrow => h row (by simp [hrow]))
        cases hrw : parse_rows days rest with
        | none => rw [hrw] at h2; simp at h2
        | some out => simp [hpc, hrw]

theorem parse_rows_mem (days : List String) :
    ∀ (body : List (List Cell)) (out : List CourseRec),
    parse_rows days body = some out →
    ∀ (c0 : Cell) (cs : List Cell), (c0 :: cs) ∈ body →
    ∀ (j : Nat) (cell : Cell) (content : String),
    cs.get? j = some cell → parse_course_content cell = some content →
    ∃ day, days.get? j = some day ∧
      (⟨day, remove_newlines c0.text, content⟩ : CourseRec) ∈ out := by
  intro body
  induction body with
  | nil =>
    intro out _ c0 cs hmem
    simp at hmem
  | cons r rest ih =>
    intro out h c0 cs hmem j cell content hj hc
    rcases List.mem_cons.1 hmem with hr | hr
    · subst hr
      simp only [parse_rows] at h
      cases hpc : parse_cells days (remove_newlines c0.text) 0 cs with
      | none => rw [hpc] at h; simp at h
      | some recs =>
        rw [hpc] at h
        cases hrw : parse_rows days rest with
        | none => rw [hrw] at h; simp at h
        | some out' =>
          rw [hrw] at h
          simp at h
          obtain ⟨day, hd, hm⟩ :=
            parse_cells_mem days (remove_newlines c0.text) cs 0 j recs cell content hpc hj hc
          refine ⟨day, by simpa using hd, ?_⟩
          rw [← h]
          simp [hm]
    · cases r with
      | nil =>
        rw [show parse_rows days ([] :: rest) = parse_rows days rest from rfl] at h
        exact ih out h c0 cs hr j cell content hj hc
      | cons c0' cs' =>
        simp only [parse_rows] at h
        cases hpc : parse_cells days (remove_newlines c0'.text) 0 cs' with
        | none => rw [hpc] at h; simp at h
        | some recs =>
          rw [hpc] at h
          cases hrw : parse_rows days rest with
          | none => rw [hrw] at h; simp at h
          | some out' =>
            rw [hrw] at h
            simp at h
            obtain ⟨day, hd, hm⟩ := ih out' hrw c0 cs hr j cell content hj hc
            refine ⟨day, hd, ?_⟩
            rw [← h]
            simp [hm]

/-- **C10.** Under the precondition that every non-header row has at most as
many cells as the header row, grid parsing is total (no day-label lookup is
out of range), rows with no cells are skipped, and every extracted course
record carries the day label of the header cell in the same column as its
cell (the cell at position `j` of `cells[1:]` sits in column `j + 1`, under
the header cell at that same index). -/
theorem c10_grid_parsing_total :
    (∀ (header : List Cell) (body : List (List Cell)),
        (∀ row ∈ body, row.length ≤ header.length) →
        (parse_grid header body).isSome)
    ∧ (∀ (days : List String) (rest : List (List Cell)),
        parse_rows days ([] :: rest) = parse_rows days rest)
    ∧ (∀ (header : List Cell) (body : List (List Cell)) (recs : List CourseRec)
        (c0 : Cell) (cs : List Cell) (j : Nat) (cell : Cell) (content : String),
        parse_grid header body = some recs →
        (c0 :: cs) ∈ body →
        cs.get? j = some cell →
        parse_course_content cell = some content →
        ∃ day, (header.map Cell.text).get? (j + 1) = some day ∧
          (⟨day, remove_newlines c0.text, content⟩ : CourseRec) ∈ recs) := by
  refine ⟨?_, ?_, ?_⟩
  · intro header body h
    unfold parse_grid
    apply parse_rows_isSome
    intro row hrow
    have hd : ((header.map Cell.text).drop 1).length = header.length - 1 := by simp
    have := h row hrow
    omega
  · intro days rest
    rfl
  · intro header body recs c0 cs j cell content h hmem hj hc
    obtain ⟨day, hd, hm⟩ := parse_rows_mem ((header.map Cell.text).drop 1)
      body recs h c0 cs hmem j cell content hj hc
    refine ⟨day, ?_, hm⟩
    rw [← hd, List.get?_drop]
    congr 1
    omega

/-- A two-row rendered grid: header `[label, 星期一]`, one data row with the
period label and one course cell. -/
def demo_table : List (List Cell) :=
  [[⟨"", none⟩, ⟨"星期一", none⟩],
   [⟨"第一节", none⟩, ⟨"", some ⟨some "高数", none, none, some "A101"⟩⟩]]

/-- Witness for C10: totality and the day-label assignment on `demo_table`. -/
theorem c10_witness :
    (parse_grid [⟨"", none⟩, ⟨"星期一", none⟩]
      [[⟨"第一节", none⟩, ⟨"", some ⟨some "高数", none, none, some "A101"⟩⟩]]).isSome = true
    ∧ (⟨"星期一", "第一节", "高数 A101"⟩ : CourseRec) ∈
        [(⟨"星期一", "第一节", "高数 A101"⟩ : CourseRec)] := by
  constructor
  · exact c10_grid_parsing_total.1 [⟨"", none⟩, ⟨"星期一", none⟩]
      [[⟨"第一节", none⟩, ⟨"", some ⟨some "高数", none, none, some "A101"⟩⟩]]
      (by intro row hrow; fin_cases hrow; decide)
  · obtain ⟨day, hd, hm⟩ := c10_grid_parsing_total.2.2
      [⟨"", none⟩, ⟨"星期一", none⟩]
      [[⟨"第一节", none⟩, ⟨"", some ⟨some "高数", none, none, some "A101"⟩⟩]]
      [⟨"星期一", "第一节", "高数 A101"⟩]
      ⟨"第一节", none⟩ [⟨"", some ⟨some "高数", none, none, some "A101"⟩⟩] 0
      ⟨"", some ⟨some "高数", none, none, some "A101"⟩⟩ "高数 A101"
      (by decide) (by simp) rfl rfl
    have hday : "星期一" = day := by simpa using hd
    subst hday
    simp at hm
    simp [hm]

/-! ## C6 and C9: extraction skip semantics, validation, and the week prefix -/

/-- The number of weeks in a successful extraction result. -/
def weeks_count : Except Err WeeksOut → Nat
  | Except.ok o => o.weeks.length
  | Except.error _ => 0

/-- The week ids of a successful extraction result, in order. -/
def weeks_ids : Except Err WeeksOut → List String
  | Except.ok o => o.weeks.map WeekResult.week_id
  | Except.error _ => []

/-- A synthetic 3-week run: week index 1 (the second week) surfaces a modal
alert with non-empty text; weeks 0 and 2 render `demo_table`. -/
def c6_envs : Nat → WeekEnv
  | 1 => { alertText := some "该周无课表数据" }
  | _ => { table := some demo_table }

def c6_sems : List MiniOpt :=
  [{ id := some "s1", name := some "2024-2025学年秋季学期" }]

def c6_weeks : List MiniOpt :=
  [{ weekId := some "w1", weekName := some "第1周" },
   { weekId := some "w2", weekName := some "第2周" },
   { weekId := some "w3", weekName := some "第3周" }]

/-- **C6.** A week skipped for a script failure, a non-empty dismissed alert
text, or a grid-render timeout contributes nothing to the output (its loop
iteration is `continue`, not an empty placeholder); and on the synthetic
3-week dataset where week 2 alerts and weeks 1 and 3 render course data, the
output has exactly the two entries for weeks 1 and 3. -/
theorem c6_skipped_weeks_absent :
    (∀ (env : WeekEnv) (w : MiniOpt),
        env.scriptOk = false ∨ (env.alertText.getD "") ≠ "" ∨ env.gridRendered = false →
        process_week env w = Except.ok none)
    ∧ weeks_count (get_semester_weeks_core c6_sems c6_weeks "s1" 19 c6_envs) = 2
    ∧ weeks_ids (get_semester_weeks_core c6_sems c6_weeks "s1" 19 c6_envs) = ["w1", "w3"] := by
  refine ⟨?_, by decide, by decide⟩
  intro env w h
  unfold process_week
  rcases h with h | h | h
  · simp [h]
  · by_cases h1 : env.scriptOk = false
    · simp [h1]
    · simp [h1, h]
  · by_cases h1 : env.scriptOk = false
    · simp [h1]
    · by_cases h2 : (env.alertText.getD "") ≠ ""
      · simp [h1, h2]
      · simp [h1, h2, h]

/-- Witness for C6: the skip lemma applied to a concrete alert-bearing
environment. -/
theorem c6_witness :
    process_week { alertText := some "该周无课表数据" }
        { weekId := some "w2", weekName := some "第2周" }
      = Except.ok none :=
  c6_skipped_weeks_absent.1 { alertText := some "该周无课表数据" }
    { weekId := some "w2", weekName := some "第2周" }
    (Or.inr (Or.inl (by decide)))

theorem process_week_id (env : WeekEnv) (w : MiniOpt) (r : WeekResult)
    (h : process_week env w = Except.ok (some r)) :
    r.week_id = (val_name w).1 := by
  unfold process_week at h
  by_cases h1 : env.scriptOk = false
  · simp [h1] at h
  · by_cases h2 : (env.alertText.getD "") ≠ ""
    · simp [h1, h2] at h
    · by_cases h3 : env.gridRendered = false
      · simp [h1, h2, h3] at h
      · simp only [h1, h2, h3] at h
        simp at h
        cases ht : env.table with
        | none => rw [ht] at h; simp at h
        | some rows =>
          rw [ht] at h
          cases rows with
          | nil => simp at h
          | cons header body =>
            simp only at h
            cases hg : parse_grid header body with
            | none => rw [hg] at h; simp at h
            | some recs =>
              rw [hg] at h
              simp at h
              rw [← h]

theorem except_map_ok {α β : Type} {f : α → β} {x : Except Err α} {out : β}
    (h : Except.map f x = Except.ok out) : ∃ y, x = Except.ok y ∧ out = f y := by
  cases x with
  | error e => simp [Except.map] at h
  | ok y => exact ⟨y, rfl, by simpa [Except.map] using h.symm⟩

theorem run_weeks_ids_sublist (envs : Nat → WeekEnv) :
    ∀ (ws : List MiniOpt) (i : Nat) (out : List WeekResult),
    run_weeks envs i ws = Except.ok out →
    (out.map WeekResult.week_id).Sublist (ws.map (fun w => (val_name w).1)) := by
  intro ws
  induction ws with
  | nil =>
    intro i out h
    simp [run_weeks] at h
    simp [← h]
  | cons w rest ih =>
    intro i out h
    simp only [run_weeks] at h
    cases hpw : process_week (envs i) w with
    | error e => rw [hpw] at h; simp at h
    | ok o =>
      rw [hpw] at h
      cases o with
      | none =>
        exact List.Sublist.cons _ (ih (i + 1) out h)
      | some r =>
        obtain ⟨out', hrw, hout⟩ := except_map_ok h
        subst hout
        simp only [List.map_cons]
        rw [process_week_id (envs i) w r hpw]
        exact List.Sublist.cons₂ _ (ih (i + 1) out' hrw)

/-- **C9.** Extraction first validates the requested semester id against the
ids of the dropdown dataset, failing with the unknown-semester client error
(HTTP 400, `无效的 sem_id`) and extracting nothing when it is absent; on
success the output weeks are an ordered sublist of the first
`max(1, bound)` entries of the week dataset, so no output week lies beyond
that prefix. -/
theorem c9_semester_validation_and_week_prefix :
    (∀ (semOptions weekOptions : List MiniOpt) (reqSemId : String) (maxWeeks : Int)
        (envs : Nat → WeekEnv),
        (∀ o ∈ semOptions, (val_name o).1 ≠ reqSemId) →
        get_semester_weeks_core semOptions weekOptions reqSemId maxWeeks envs
          = Except.error (Err.http 400 "无效的 sem_id"))
    ∧ (∀ (semOptions weekOptions : List MiniOpt) (reqSemId : String) (maxWeeks : Int)
        (envs : Nat → WeekEnv) (out : WeeksOut),
        get_semester_weeks_core semOptions weekOptions reqSemId maxWeeks envs
          = Except.ok out →
        (out.weeks.map WeekResult.week_id).Sublist
          ((weekOptions.take (max 1 maxWeeks).toNat).map (fun w => (val_name w).1))) := by
  constructor
  · intro semOptions weekOptions reqSemId maxWeeks envs h
    unfold get_semester_weeks_core
    rw [List.find?_eq_none.2 (fun o ho => by simp [h o ho])]
  · intro semOptions weekOptions reqSemId maxWeeks envs out h
    unfold get_semester_weeks_core at h
    cases hf : semOptions.find? (fun o => (val_name o).1 = reqSemId) with
    | none => rw [hf] at h; simp at h
    | some o =>
      rw [hf] at h
      obtain ⟨ws, hrw, hout⟩ := except_map_ok h
      subst hout
      exact run_weeks_ids_sublist envs _ 0 ws hrw

/-- Witness for C9: an unknown semester id is rejected with the HTTP 400
client error, and the successful 3-week demo run's output ids are a sublist
of the week-dataset prefix ids. -/
theorem c9_witness :
    get_semester_weeks_core c6_sems c6_weeks "nope" 19 c6_envs
      = Except.error (Err.http 400 "无效的 sem_id")
    ∧ (weeks_ids (get_semester_weeks_core c6_sems c6_weeks "s1" 19 c6_envs)).Sublist
        ((c6_weeks.take (max 1 (19 : Int)).toNat).map (fun w => (val_name w).1)) := by
  constructor
  · exact c9_semester_validation_and_week_prefix.1 c6_sems c6_weeks "nope" 19 c6_envs
      (by intro o ho; fin_cases ho; decide)
  · have hok : get_semester_weeks_core c6_sems c6_weeks "s1" 19 c6_envs
        = Except.ok ⟨"s1", "2024-2025学年秋季学期",
            [⟨"w1", "第1周", [⟨"星期一", "第一节", "高数 A101"⟩]⟩,
             ⟨"w3", "第3周", [⟨"星期一", "第一节", "高数 A101"⟩]⟩]⟩ := by rfl
    have := c9_semester_validation_and_week_prefix.2 c6_sems c6_weeks "s1" 19 c6_envs
      _ hok
    rw [hok]
    exact this

/-! ## C5: registry-referenced drivers never sit in the idle pool

The invariant carries, besides the disjointness itself, the bookkeeping
facts that make it inductive: pool and session drivers are genuinely
created ids (below the freshness counter) and the idle queue holds no
duplicates. -/

def Inv (s : RegState) : Prop :=
  (∀ p ∈ s.sessions, p.2 ∉ s.pool)
  ∧ (∀ d ∈ s.pool, d < s.nextDrv)
  ∧ (∀ p ∈ s.sessions, p.2 < s.nextDrv)
  ∧ s.pool.Nodup

theorem mem_setKey {u : List (Nat × Nat)} {k v : Nat} {p : Nat × Nat}
    (h : p ∈ setKey u k v) : p = (k, v) ∨ p ∈ u := by
  induction u with
  | nil => simpa [setKey] using h
  | cons q t ih =>
    obtain ⟨a, b⟩ := q
    by_cases ha : a = k
    · subst ha
      simp [setKey] at h
      rcases h with h | h
      · exact Or.inl (by simp [h])
      · exact Or.inr (by simp [h])
    · simp [setKey, ha] at h
      rcases h with h | h
      · exact Or.inr (by simp [h])
      · rcases ih h with h' | h'
        · exact Or.inl h'
        · exact Or.inr (by simp [h'])

theorem init_state_inv (k : Nat) : Inv (init_state k) := by
  refine ⟨?_, ?_, ?_, ?_⟩
  · intro p hp
    simp [init_state] at hp
  · intro d hd
    simpa [init_state] using (by simpa [init_state] using hd : d < k)
  · intro p hp
    simp [init_state] at hp
  · simpa [init_state] using List.nodup_range k

/-- What `ceiling_check` guarantees about a checked-out driver: the state
keeps the invariant, the handed-out driver is not in the pool and is not
referenced by any session, and the session map is untouched. -/
theorem ceiling_check_inv {s : RegState} {d : Nat} {f : Factory}
    (hinv : Inv s) (hd_pool : d ∉ s.pool) (hd_lt : d < s.nextDrv)
    (hd_sess : ∀ p ∈ s.sessions, p.2 ≠ d) :
    Inv (ceiling_check s d f).2
    ∧ (ceiling_check s d f).2.sessions = s.sessions
    ∧ (ceiling_check s d f).2.pool = s.pool
    ∧ s.nextDrv ≤ (ceiling_check s d f).2.nextDrv
    ∧ (∀ d2, (ceiling_check s d f).1 = Except.ok d2 →
        d2 ∉ (ceiling_check s d f).2.pool
        ∧ (∀ p ∈ (ceiling_check s d f).2.sessions, p.2 ≠ d2)
        ∧ d2 < (ceiling_check s d f).2.nextDrv) := by
  obtain ⟨h1, h2, h3, h4⟩ := hinv
  by_cases hceil : MAX_USAGE_PER_DRIVER ≤ usageOf s d
  · cases hc : create_driver s.nextDrv f with
    | error e =>
      have he : ceiling_check s d f
          = (Except.error (Err.raw e), { s with quitted := d :: s.quitted }) := by
        simp [ceiling_check, hceil, hc]
      rw [he]
      refine ⟨⟨h1, h2, h3, h4⟩, rfl, rfl, le_refl _, ?_⟩
      intro d2 hd2
      simp at hd2
    | ok d2 =>
      have hd2 := create_driver_ok_eq hc
      subst hd2
      have he : ceiling_check s d f
          = (Except.ok s.nextDrv,
             { s with quitted := d :: s.quitted,
                      usage := setKey s.usage d 0,
                      nextDrv := s.nextDrv + 1 }) := by
        simp [ceiling_check, hceil, hc]
      rw [he]
      refine ⟨⟨h1, ?_, ?_, h4⟩, rfl, rfl, by simp, ?_⟩
      · intro x hx
        exact Nat.lt_succ_of_lt (h2 x hx)
      · intro p hp
        exact Nat.lt_succ_of_lt (h3 p hp)
      · intro x hx
        simp at hx
        subst hx
        refine ⟨?_, ?_, by simp⟩
        · intro hmem
          exact absurd (h2 _ hmem) (lt_irrefl _)
        · intro p hp
          exact Nat.ne_of_lt (h3 p hp)
  · have he := ceiling_check_of_lt (s := s) (d := d) f (Nat.not_le.1 hceil)
    rw [he]
    refine ⟨⟨h1, h2, h3, h4⟩, rfl, rfl, le_refl _, ?_⟩
    intro d2 hd2
    simp at hd2
    subst hd2
    exact ⟨hd_pool, hd_sess, hd_lt⟩

theorem get_driver_inv {s s' : RegState} {f : Factory} {r : Except Err Nat}
    (hinv : Inv s) (h : get_driver s f = (r, s')) :
    Inv s' ∧ s'.sessions = s.sessions
    ∧ (∀ d, r = Except.ok d →
        d ∉ s'.pool ∧ (∀ p ∈ s'.sessions, p.2 ≠ d) ∧ d < s'.nextDrv) := by
  obtain ⟨h1, h2, h3, h4⟩ := hinv
  obtain ⟨pl, ss, ex, us, nd, ns, qt⟩ := s
  cases pl with
  | nil =>
    cases hc : create_driver nd f with
    | error e =>
      have hgd : get_driver (RegState.mk [] ss ex us nd ns qt) f
          = (Except.error (Err.http 503 ("Chrome 启动失败: " ++ e)),
             RegState.mk [] ss ex us nd ns qt) := by
        simp [get_driver, hc]
      rw [hgd] at h
      obtain ⟨hr, hs⟩ := Prod.mk.injEq .. ▸ h
      cases h
      refine ⟨⟨h1, h2, h3, h4⟩, rfl, ?_⟩
      intro d hd
      simp at hd
    | ok d0 =>
      have hd0 := create_driver_ok_eq hc
      rw [hd0] at hc
      have hgd : get_driver (RegState.mk [] ss ex us nd ns qt) f
          = ceiling_check (RegState.mk [] ss ex us (nd + 1) ns qt) nd f := by
        simp [get_driver, hc]
      rw [hgd] at h
      have hcc := ceiling_check_inv (s := RegState.mk [] ss ex us (nd + 1) ns qt)
        (d := nd) (f := f)
        ⟨by intro p hp; simp, by intro d hd; simp at hd,
         by intro p hp; exact Nat.lt_succ_of_lt (h3 p hp), by simp⟩
        (by simp) (by simp)
        (by intro p hp; exact Nat.ne_of_lt (h3 p hp))
      rw [h] at hcc
      exact ⟨hcc.1, hcc.2.1, hcc.2.2.2.2⟩
  | cons d0 rest =>
    have hgd : get_driver (RegState.mk (d0 :: rest) ss ex us nd ns qt) f
        = ceiling_check (RegState.mk rest ss ex us nd ns qt) d0 f := by
      simp [get_driver]
    rw [hgd] at h
    have hnd : d0 ∉ rest := by
      have := h4
      simp at this
      exact this.1
    have hcc := ceiling_check_inv (s := RegState.mk rest ss ex us nd ns qt)
      (d := d0) (f := f)
      ⟨by intro p hp hmem; exact h1 p hp (by simp [hmem]),
       by intro d hd; exact h2 d (by simp [hd]),
       h3, by have := h4; simp at this; exact this.2⟩
      hnd (h2 d0 (by simp))
      (by intro p hp hpd; exact h1 p hp (by simp [hpd]))
    rw [h] at hcc
    exact ⟨hcc.1, hcc.2.1, hcc.2.2.2.2⟩

theorem release_driver_inv {s : RegState} {d : Nat} {ok : Bool} {f : Factory}
    (hinv : Inv s) (hd_pool : d ∉ s.pool) (hd_lt : d < s.nextDrv)
    (hd_sess : ∀ p ∈ s.sessions, p.2 ≠ d) :
    Inv (release_driver s d ok f) := by
  obtain ⟨h1, h2, h3, h4⟩ := hinv
  cases ok with
  | true =>
    refine ⟨?_, ?_, h3, ?_⟩
    · intro p hp hmem
      simp only [release_driver, if_pos rfl] at hmem
      simp at hmem
      rcases hmem with hmem | hmem
      · exact h1 p hp hmem
      · exact hd_sess p hp hmem
    · intro x hx
      simp only [release_driver, if_pos rfl] at hx
      simp at hx
      show x < s.nextDrv
      rcases hx with hx | hx
      · exact h2 x hx
      · subst hx
        exact hd_lt
    · simp only [release_driver, if_pos rfl]
      simp [List.nodup_append, h4]
      intro hmem
      exact hd_pool hmem
  | false =>
    cases hc : create_driver s.nextDrv f with
    | error e =>
      have he : release_driver s d false f = { s with quitted := d :: s.quitted } := by
        simp [release_driver, hc]
      rw [he]
      exact ⟨h1, h2, h3, h4⟩
    | ok d2 =>
      have hd2 := create_driver_ok_eq hc
      subst hd2
      have he : release_driver s d false f
          = { s with quitted := d :: s.quitted,
                     pool := s.pool ++ [s.nextDrv],
                     nextDrv := s.nextDrv + 1 } := by
        simp [release_driver, hc]
      rw [he]
      refine ⟨?_, ?_, ?_, ?_⟩
      · intro p hp hmem
        simp at hmem
        rcases hmem with hmem | hmem
        · exact h1 p hp hmem
        · exact absurd (hmem ▸ h3 p hp) (lt_irrefl _)
      · intro x hx
        simp at hx
        show x < s.nextDrv + 1
        rcases hx with hx | hx
        · exact Nat.lt_succ_of_lt (h2 x hx)
        · subst hx
          exact Nat.lt_succ_self _
      · intro p hp
        exact Nat.lt_succ_of_lt (h3 p hp)
      · simp [List.nodup_append, h4]
        intro hmem
        exact absurd (h2 _ hmem) (lt_irrefl _)

theorem register_session_inv {s : RegState} {d : Nat} (now : Nat)
    (hinv : Inv s) (hd_pool : d ∉ s.pool) (hd_lt : d < s.nextDrv) :
    Inv (register_session s d now).2 := by
  obtain ⟨h1, h2, h3, h4⟩ := hinv
  refine ⟨?_, h2, ?_, h4⟩
  · intro p hp
    rcases mem_setKey hp with hp' | hp'
    · subst hp'
      exact hd_pool
    · exact h1 p hp'
  · intro p hp
    rcases mem_setKey hp with hp' | hp'
    · subst hp'
      exact hd_lt
    · exact h3 p hp'

theorem get_captcha_inv (s : RegState) (f : Factory) (env : CaptchaEnv) (now : Nat)
    (hinv : Inv s) : Inv (get_captcha s f env now).2 := by
  unfold get_captcha
  by_cases hm : 500 < env.mem
  · simpa [hm] using hinv
  · rw [if_neg hm]
    cases hgd : get_driver s f with
    | mk r s1 =>
      obtain ⟨hinv1, hsess, hok⟩ := get_driver_inv hinv hgd
      cases r with
      | error e => exact hinv1
      | ok d =>
        obtain ⟨hd_pool, hd_sess, hd_lt⟩ := hok d rfl
        by_cases hpage : env.pageOk = false
        · simp only [hpage]
          simp
          exact release_driver_inv hinv1 hd_pool hd_lt hd_sess
        · by_cases hsrc : env.srcIsDataImage
          · simp only [hpage, hsrc]
            simp
            exact register_session_inv now hinv1 hd_pool hd_lt
          · simp only [hpage, hsrc]
            simp [hsrc]
            exact release_driver_inv hinv1 hd_pool hd_lt hd_sess

theorem touch_session_inv {s : RegState} (sid now : Nat) (hinv : Inv s) :
    Inv (touch_session s sid now) :=
  hinv

theorem sweep_registry_inv {s : RegState} (now th : Nat) (hinv : Inv s) :
    Inv (sweep_registry s now th) := by
  obtain ⟨h1, h2, h3, h4⟩ := hinv
  refine ⟨?_, h2, ?_, h4⟩
  · intro p hp
    exact h1 p (List.mem_filter.1 hp).1
  · intro p hp
    exact h3 p (List.mem_filter.1 hp).1

theorem shrink_pool_inv {s : RegState} (n : Nat) (hinv : Inv s) :
    Inv (shrink_pool s n) := by
  obtain ⟨h1, h2, h3, h4⟩ := hinv
  refine ⟨?_, ?_, h3, ?_⟩
  · intro p hp hmem
    exact h1 p hp (List.drop_subset n s.pool hmem)
  · intro x hx
    exact h2 x (List.drop_subset n s.pool hx)
  · exact h4.sublist (List.drop_sublist n s.pool)

theorem cleanup_drivers_step_inv {s : RegState} (now : Nat) (hinv : Inv s) :
    Inv (cleanup_drivers_step s now) :=
  sweep_registry_inv now IDLE_SWEEP_THRESHOLD hinv

theorem monitor_memory_step_inv {s : RegState} (now mem1 mem2 : Nat) (hinv : Inv s) :
    Inv (monitor_memory_step s now mem1 mem2) := by
  unfold monitor_memory_step
  by_cases hm1 : MEMORY_HIGH_WATER < mem1
  · rw [if_pos hm1]
    by_cases hm2 : MEMORY_HIGH_WATER < mem2
    · rw [if_pos hm2]
      exact shrink_pool_inv 2 (sweep_registry_inv now PRESSURE_SWEEP_THRESHOLD hinv)
    · rw [if_neg hm2]
      exact sweep_registry_inv now PRESSURE_SWEEP_THRESHOLD hinv
  · rw [if_neg hm1]
    exact hinv

theorem auto_release_driver_inv {s : RegState} (sid : Nat) (hinv : Inv s) :
    Inv (auto_release_driver s sid) := by
  obtain ⟨h1, h2, h3, h4⟩ := hinv
  unfold auto_release_driver
  by_cases hmem : s.sessions.any (fun p => p.1 = sid)
  · rw [if_pos hmem]
    refine ⟨?_, h2, ?_, h4⟩
    · intro p hp
      exact h1 p (List.mem_filter.1 hp).1
    · intro p hp
      exact h3 p (List.mem_filter.1 hp).1
  · rw [if_neg hmem]
    exact ⟨h1, h2, h3, h4⟩

theorem reachable_inv {s : RegState} (h : Reachable s) : Inv s := by
  induction h with
  | init k hk => exact init_state_inv k
  | step hr hstep ih =>
    cases hstep with
    | captcha f env now s0 => exact get_captcha_inv _ f env now ih
    | touch sid now s0 => exact touch_session_inv sid now ih
    | idle_sweep now s0 => exact cleanup_drivers_step_inv now ih
    | memory_sweep now mem1 mem2 s0 => exact monitor_memory_step_inv now mem1 mem2 ih
    | auto_release sid s0 => exact auto_release_driver_inv sid ih

/-- **C5.** In every reachable state of the pool/registry system, a driver
referenced by the session registry is not in the pool's idle queue: a driver
bound to a session id on captcha issuance left the pool when checked out,
and a driver released back to the pool is bound to no session. -/
theorem c5_registry_pool_disjoint (s : RegState) (h : Reachable s) :
    ∀ (sid d : Nat), (sid, d) ∈ s.sessions → d ∉ s.pool := by
  intro sid d hmem
  exact (reachable_inv h).1 (sid, d) hmem

/-- Witness for C5: after a successful `/captcha` on the one-driver initial
state, driver 0 is bound to session 0 and absent from the idle queue. -/
theorem c5_witness :
    ((0, 0) ∈ (get_captcha (init_state 1) (Factory.mk FOutcome.ok true)
      (CaptchaEnv.mk 0 true true true) 0).2.sessions)
    ∧ ((0 : Nat) ∉ (get_captcha (init_state 1) (Factory.mk FOutcome.ok true)
      (CaptchaEnv.mk 0 true true true) 0).2.pool) :=
  ⟨by decide,
   c5_registry_pool_disjoint _
     (Reachable.step (Reachable.init 1 (by decide))
       (Step.captcha (Factory.mk FOutcome.ok true) (CaptchaEnv.mk 0 true true true) 0
         (init_state 1)))
     0 0 (by decide)⟩
